import Mathlib

/-!
Verification of the relay/queueing/session-identity subsystem of the
MacOS-Remote-Access-Socket-App repository.

The server (`src/webapp/index.js`, with its earlier revision in
`src/unnamed/part_000`) is a single-threaded socket.io relay.  We embed its
state (the module-level `let` bindings), its event handlers, and the
`setTimeout`-based queue drain as a step function on an explicit state
record.  Every `emit` is recorded as an `Emission`, with the recipient set
resolved from the connection list at emission time, so broadcast/unicast
claims can be read off the trace.
-/

namespace MacBridge

/-- Wire values relayed by the server: JS strings, integers, the `NaN`
value that `parseInt` produces on unparseable input, and the structured
`statusUpdate` payloads (`{type:'mac',...}` and `{type:'queue',...}`). -/
inductive Value where
  | str : String → Value
  | num : Int → Value
  | nan : Value
  | statusMac : Bool → Value
  | statusQueueQueued : Int → Value
  | statusQueueCleared : Value
deriving DecidableEq

/-- One entry of `messageQueue`: the `{ event, data }` object pushed by
`sendToMac`. -/
structure QueuedMsg where
  event : String
  data : Value
deriving DecidableEq

/-- One pending `setTimeout` scheduled by the queue drain in the `identify`
handler: the callback captures `msg` and `index`; `fireAt` is the absolute
due time (`index * 2500` past the moment of scheduling). -/
structure DrainTimer where
  fireAt : Nat
  index : Nat
  msg : QueuedMsg
deriving DecidableEq

/-- How an emission addresses sockets:
`io.emit` (all), `socket.emit` (the one socket), `socket.broadcast.emit`
(all but the sender), `io.to(id).emit` (the room named by the id; empty
when the id is `null` or the socket has disconnected). -/
inductive EmitTarget where
  | all : EmitTarget
  | direct : String → EmitTarget
  | broadcastFrom : String → EmitTarget
  | toRoom : Option String → EmitTarget
deriving DecidableEq

/-- A recorded `emit`: when it happened, how it was addressed, the event
name, the payload, and the recipient set resolved at emission time. -/
structure Emission where
  time : Nat
  target : EmitTarget
  event : String
  payload : Value
  recipients : List String
deriving DecidableEq

/-- The module-level mutable state of `src/webapp/index.js`, plus the
connection list and pending drain timers needed to give the handlers a
meaning. -/
structure ServerState where
  lastClipboardContent : String
  lastEmoji : String
  lastWord : String
  lastQuality : Value
  lastFrameRate : Value
  lastHtmlSource : String
  macUserSocketId : Option String
  messageQueue : List QueuedMsg
  connections : List String
  timers : List DrainTimer
  now : Nat
deriving DecidableEq

/-- JS whitespace skipped by `parseInt`. -/
def isJsSpace (c : Char) : Bool :=
  c == ' ' || c == '\t' || c == '\n' || c == '\r'

/-- Accumulate further leading decimal digits. -/
def digitsAux : List Char → Nat → Nat
  | [], acc => acc
  | c :: cs, acc => if c.isDigit then digitsAux cs (10 * acc + (c.toNat - 48)) else acc

/-- Value of the leading run of decimal digits; `none` when there is no
leading digit. -/
def leadingDigits : List Char → Option Nat
  | [] => none
  | c :: cs => if c.isDigit then some (digitsAux cs (c.toNat - 48)) else none

/-- Model of JavaScript `parseInt(x, 10)`: skip leading whitespace, accept
an optional sign, read leading decimal digits, and yield `NaN` when no
digit is found. -/
def parseIntJS (x : String) : Value :=
  match (x.toList.dropWhile isJsSpace) with
  | '-' :: cs =>
    match leadingDigits cs with
    | some n => Value.num (-(n : Int))
    | none => Value.nan
  | '+' :: cs =>
    match leadingDigits cs with
    | some n => Value.num ((n : Int))
    | none => Value.nan
  | cs =>
    match leadingDigits cs with
    | some n => Value.num ((n : Int))
    | none => Value.nan

/-- The sockets actually reached by an emission, given the currently
connected sockets. -/
def resolveTarget (conns : List String) : EmitTarget → List String
  | .all => conns
  | .direct sid => [sid]
  | .broadcastFrom sid => conns.filter (fun c => c != sid)
  | .toRoom none => []
  | .toRoom (some sid) => if sid ∈ conns then [sid] else []

/-- Record one emission from state `s`. -/
def mkEmission (s : ServerState) (tgt : EmitTarget) (ev : String) (pay : Value) : Emission :=
  ⟨s.now, tgt, ev, pay, resolveTarget s.connections tgt⟩

/-- `sendToMac` of `src/webapp/index.js`: emit to the device room unless
the event is `wordToMac` and (no device is bound or the queue is
non-empty), in which case push onto `messageQueue` and broadcast the new
queue depth. -/
def sendToMac (ev : String) (data : Value) (s : ServerState) : ServerState × List Emission :=
  if ev != "wordToMac" || (s.macUserSocketId.isSome && s.messageQueue.length == 0) then
    (s, [mkEmission s (.toRoom s.macUserSocketId) ev data])
  else
    let s1 := { s with messageQueue := s.messageQueue ++ [⟨ev, data⟩] }
    (s1, [mkEmission s1 .all "statusUpdate" (.statusQueueQueued ((s1.messageQueue.length : Int)))])

/-- The `messageQueue.forEach((msg, index) => setTimeout(..., index * 2500))`
loop: one timer per queued message, due `2500 * index` after `base`. -/
def scheduleDrain (base : Nat) : Nat → List QueuedMsg → List DrainTimer
  | _, [] => []
  | i, m :: rest => ⟨base + 2500 * i, i, m⟩ :: scheduleDrain base (i + 1) rest

/-- The pending timer that is due first (ties broken by scheduling order),
as the JS timer queue would select it. -/
def earliestTimer : List DrainTimer → Option DrainTimer
  | [] => none
  | t :: ts => some (ts.foldl (fun best u => if u.fireAt < best.fireAt then u else best) t)

/-- Run one drain-timer callback: unicast the captured message to the
current device room, broadcast the remaining count (current queue length
minus `index` minus one), and if `index` equals the current queue length
minus one, clear the queue and broadcast the cleared status. -/
def fireTimer (t : DrainTimer) (s : ServerState) : ServerState × List Emission :=
  let e1 : Emission :=
    ⟨t.fireAt, .toRoom s.macUserSocketId, t.msg.event, t.msg.data,
      resolveTarget s.connections (.toRoom s.macUserSocketId)⟩
  let e2 : Emission :=
    ⟨t.fireAt, .all, "statusUpdate",
      .statusQueueQueued ((s.messageQueue.length : Int) - (t.index : Int) - 1), s.connections⟩
  if (t.index : Int) = (s.messageQueue.length : Int) - 1 then
    let s1 := { s with messageQueue := [], timers := s.timers.erase t, now := t.fireAt }
    (s1, [e1, e2, ⟨t.fireAt, .all, "statusUpdate", .statusQueueCleared, s1.connections⟩])
  else
    ({ s with timers := s.timers.erase t, now := t.fireAt }, [e1, e2])

/-- Fire the earliest pending timer, if any. -/
def handleFireNext (s : ServerState) : ServerState × List Emission :=
  match earliestTimer s.timers with
  | none => (s, [])
  | some t => fireTimer t s

/-- The `identify` handler of `src/webapp/index.js`.  `type === 'macos'`
binds the device, broadcasts the connected status, pushes last word /
quality / frame-rate to the device, and schedules one drain timer per
queued message.  Any other type is a web client: it is hydrated with
clipboard, emoji, rendered markup and device status, and if the queue is
non-empty the handler resets `messageQueue` to `[]` and then sends the
queue status with `count: messageQueue.length` (the length after the
reset). -/
def handleIdentify (sid : String) (ty : String) (s : ServerState) : ServerState × List Emission :=
  if ty == "macos" then
    let s1 := { s with macUserSocketId := some sid }
    let ems := [ mkEmission s1 .all "statusUpdate" (.statusMac true),
                 mkEmission s1 (.direct sid) "wordToMac" (.str s1.lastWord),
                 mkEmission s1 (.direct sid) "qualityChange" s1.lastQuality,
                 mkEmission s1 (.direct sid) "frameRateChange" s1.lastFrameRate ]
    if 0 < s1.messageQueue.length then
      ({ s1 with timers := s1.timers ++ scheduleDrain s1.now 0 s1.messageQueue }, ems)
    else
      (s1, ems)
  else
    let ems := [ mkEmission s (.direct sid) "clipboardData" (.str s.lastClipboardContent),
                 mkEmission s (.direct sid) "emojiToWeb" (.str s.lastEmoji),
                 mkEmission s (.direct sid) "renderHTML" (.str s.lastHtmlSource),
                 mkEmission s (.direct sid) "statusUpdate" (.statusMac s.macUserSocketId.isSome) ]
    if 0 < s.messageQueue.length then
      let s1 := { s with messageQueue := [] }
      (s1, ems ++ [ mkEmission s1 (.direct sid) "statusUpdate"
                      (.statusQueueQueued ((s1.messageQueue.length : Int))) ])
    else
      (s, ems)

/-- `screenData` handler of `src/webapp/index.js`: `io.emit` to everyone. -/
def handleScreenData (_sid : String) (data : String) (s : ServerState) : ServerState × List Emission :=
  (s, [mkEmission s .all "screenData" (.str data)])

/-- `screenData` handler of the earlier revision `src/unnamed/part_000`:
`socket.broadcast.emit`, excluding the sender. -/
def handleScreenDataV0 (sid : String) (data : String) (s : ServerState) : ServerState × List Emission :=
  (s, [mkEmission s (.broadcastFrom sid) "screenData" (.str data)])

/-- `webSourceCode` handler: store and `io.emit('renderHTML', ...)`. -/
def handleWebSourceCode (_sid : String) (src : String) (s : ServerState) : ServerState × List Emission :=
  let s1 := { s with lastHtmlSource := src }
  (s1, [mkEmission s1 .all "renderHTML" (.str src)])

/-- `clipboardData` handler: store and `socket.broadcast.emit`. -/
def handleClipboardData (sid : String) (content : String) (s : ServerState) : ServerState × List Emission :=
  let s1 := { s with lastClipboardContent := content }
  (s1, [mkEmission s1 (.broadcastFrom sid) "clipboardData" (.str content)])

/-- `wordToMac` handler: store as `lastWord`, then route via `sendToMac`. -/
def handleWordToMac (_sid : String) (word : String) (s : ServerState) : ServerState × List Emission :=
  let s1 := { s with lastWord := word }
  sendToMac "wordToMac" (.str word) s1

/-- `qualityChange` handler: `lastQuality = parseInt(quality, 10)` then
`sendToMac('qualityChange', lastQuality)`. -/
def handleQualityChange (_sid : String) (quality : String) (s : ServerState) : ServerState × List Emission :=
  let v := parseIntJS quality
  let s1 := { s with lastQuality := v }
  sendToMac "qualityChange" v s1

/-- `frameRateChange` handler: parse and route like quality. -/
def handleFrameRateChange (_sid : String) (frameRate : String) (s : ServerState) : ServerState × List Emission :=
  let v := parseIntJS frameRate
  let s1 := { s with lastFrameRate := v }
  sendToMac "frameRateChange" v s1

/-- `emojiToWeb` handler: store and `io.emit`. -/
def handleEmojiToWeb (_sid : String) (emoji : String) (s : ServerState) : ServerState × List Emission :=
  let s1 := { s with lastEmoji := emoji }
  (s1, [mkEmission s1 .all "emojiToWeb" (.str emoji)])

/-- Transport-level connect: the socket joins the connection list. -/
def handleConnect (sid : String) (s : ServerState) : ServerState × List Emission :=
  ({ s with connections := s.connections ++ [sid] }, [])

/-- `disconnect` handler: the socket leaves; if it was the bound device,
clear the binding and broadcast the disconnected status to the remaining
connections. -/
def handleDisconnect (sid : String) (s : ServerState) : ServerState × List Emission :=
  let s1 := { s with connections := s.connections.erase sid }
  if s.macUserSocketId == some sid then
    let s2 := { s1 with macUserSocketId := none }
    (s2, [mkEmission s2 .all "statusUpdate" (.statusMac false)])
  else
    (s1, [])

/-- The inbound events the relay reacts to, plus the firing of a pending
drain timer. -/
inductive Event where
  | connect : String → Event
  | identify : String → String → Event
  | screenData : String → String → Event
  | webSourceCode : String → String → Event
  | clipboardData : String → String → Event
  | wordToMac : String → String → Event
  | qualityChange : String → String → Event
  | frameRateChange : String → String → Event
  | emojiToWeb : String → String → Event
  | disconnect : String → Event
  | fireNextTimer : Event
deriving DecidableEq

/-- Dispatch one event to its handler. -/
def step : Event → ServerState → ServerState × List Emission
  | .connect sid, s => handleConnect sid s
  | .identify sid ty, s => handleIdentify sid ty s
  | .screenData sid d, s => handleScreenData sid d s
  | .webSourceCode sid src, s => handleWebSourceCode sid src s
  | .clipboardData sid c, s => handleClipboardData sid c s
  | .wordToMac sid w, s => handleWordToMac sid w s
  | .qualityChange sid q, s => handleQualityChange sid q s
  | .frameRateChange sid f, s => handleFrameRateChange sid f s
  | .emojiToWeb sid e, s => handleEmojiToWeb sid e s
  | .disconnect sid, s => handleDisconnect sid s
  | .fireNextTimer, s => handleFireNext s

/-- Process a list of events in order, accumulating the emission trace. -/
def runFrom : ServerState → List Event → ServerState × List Emission
  | s, [] => (s, [])
  | s, e :: es =>
    let r := step e s
    let r2 := runFrom r.1 es
    (r2.1, r.2 ++ r2.2)

/-- The initial values of the module-level `let` bindings of
`src/webapp/index.js`. -/
def initialState : ServerState where
  lastClipboardContent := "Welcome to the shared clipboard!"
  lastEmoji := "⌛"
  lastWord := "Ready"
  lastQuality := .num 1
  lastFrameRate := .num 16
  lastHtmlSource := "<div style=\"display:flex;align-items:center;justify-content:center;height:100%;font-family:sans-serif;color:#555;\">Waiting for HTML content...</div>"
  macUserSocketId := none
  messageQueue := []
  connections := []
  timers := []
  now := 0

/-- Run a list of events from the server's initial state. -/
def runAll (es : List Event) : ServerState × List Emission :=
  runFrom initialState es

/-- The queue entry created for a text command. -/
def wordMsg (w : String) : QueuedMsg :=
  ⟨"wordToMac", Value.str w⟩

/-- Last element of a word sequence, with a default (mirrors the final
value of `lastWord` after a run of `wordToMac` events). -/
def lastOf : String → List String → String
  | d, [] => d
  | _, w :: ws => lastOf w ws

/-- A sample state with two connections and a bound device, for witnesses. -/
def sampleState : ServerState :=
  { initialState with connections := ["x", "y"], macUserSocketId := some "x" }

/-- Both branches of the device-identify case collapse to one state
update: bind the device, append the drain timers when the queue is
non-empty. -/
lemma identify_macos_state (sid : String) (s : ServerState) :
    (handleIdentify sid "macos" s).1
      = { s with macUserSocketId := some sid,
                 timers := s.timers ++
                   (if 0 < s.messageQueue.length then scheduleDrain s.now 0 s.messageQueue
                    else []) } := by
  simp only [handleIdentify]
  split
  · split <;> simp_all
  · simp_all

/-- Every timer scheduled by the drain loop is due exactly `2500` times
its index past the base instant, and indices grow from the starting
index. -/
lemma scheduleDrain_mem (base : Nat) (q : List QueuedMsg) :
    ∀ (i : Nat) (t : DrainTimer), t ∈ scheduleDrain base i q →
      t.fireAt = base + 2500 * t.index ∧ i ≤ t.index := by
  induction q with
  | nil => intro i t h; simp [scheduleDrain] at h
  | cons m rest ih =>
    intro i t h
    simp only [scheduleDrain, List.mem_cons] at h
    rcases h with h | h
    · subst h; exact ⟨rfl, le_refl i⟩
    · obtain ⟨h1, h2⟩ := ih (i + 1) t h
      exact ⟨h1, by omega⟩

/-- The earliest-timer fold keeps its starting point when nothing in the
list is due earlier. -/
lemma pickEarliest_fixed (t : DrainTimer) (ts : List DrainTimer)
    (h : ∀ u ∈ ts, ¬ u.fireAt < t.fireAt) :
    ts.foldl (fun best u => if u.fireAt < best.fireAt then u else best) t = t := by
  induction ts with
  | nil => rfl
  | cons u us ih =>
    simp only [List.foldl_cons]
    rw [if_neg (h u (by simp))]
    exact ih (fun v hv => h v (by simp [hv]))

/-- Among the timers scheduled for a drain of `m :: rest` from index `k`,
the earliest due is the head timer (index `k`). -/
lemma earliestTimer_scheduleDrain (base k : Nat) (m : QueuedMsg) (rest : List QueuedMsg) :
    earliestTimer (scheduleDrain base k (m :: rest))
      = some ⟨base + 2500 * k, k, m⟩ := by
  simp only [scheduleDrain, earliestTimer, Option.some.injEq]
  apply pickEarliest_fixed
  intro u hu
  obtain ⟨h1, h2⟩ := scheduleDrain_mem base rest (k + 1) u hu
  simp only [h1]
  omega

lemma runFrom_cons (s : ServerState) (e : Event) (es : List Event) :
    runFrom s (e :: es)
      = ((runFrom (step e s).1 es).1, (step e s).2 ++ (runFrom (step e s).1 es).2) := rfl

lemma runFrom_append (s : ServerState) (es1 es2 : List Event) :
    runFrom s (es1 ++ es2)
      = ((runFrom (runFrom s es1).1 es2).1,
         (runFrom s es1).2 ++ (runFrom (runFrom s es1).1 es2).2) := by
  induction es1 generalizing s with
  | nil => simp [runFrom]
  | cons e es ih => simp [runFrom_cons, ih, List.append_assoc]

/-- Expected emission trace of the paced drain, starting at item index `i`
of a drain whose queue has total length `n`: at `base + 2500 * i` the
captured message is unicast to the device room, then the remaining count
`n - i - 1` is broadcast, and after the last item (index `n - 1`) the
cleared status is broadcast. -/
def drainEmissions (base : Nat) (conns : List String) (d : String) (n : Nat) :
    Nat → List QueuedMsg → List Emission
  | _, [] => []
  | i, m :: rest =>
    ⟨base + 2500 * i, .toRoom (some d), m.event, m.data,
      resolveTarget conns (.toRoom (some d))⟩ ::
    ⟨base + 2500 * i, .all, "statusUpdate",
      .statusQueueQueued ((n : Int) - (i : Int) - 1), conns⟩ ::
    ((if (i : Int) = (n : Int) - 1
      then [⟨base + 2500 * i, .all, "statusUpdate", .statusQueueCleared, conns⟩]
      else [])
     ++ drainEmissions base conns d n (i + 1) rest)

/-- Central drain lemma: from a state whose pending timers are exactly the
drain timers for suffix `rest` (starting at index `k`) and whose queue
still has the full length `k + rest.length`, firing `rest.length` timers
delivers every captured message in order, emits the descending counts,
clears the queue after the last one, and leaves no timer pending. -/
lemma drain_run (rest : List QueuedMsg) :
    ∀ (k : Nat) (s : ServerState) (d : String) (base : Nat),
      s.macUserSocketId = some d →
      s.timers = scheduleDrain base k rest →
      s.messageQueue.length = k + rest.length →
      rest ≠ [] →
      runFrom s (List.replicate rest.length .fireNextTimer)
        = ({ s with messageQueue := [], timers := [],
                    now := base + 2500 * (k + rest.length - 1) },
           drainEmissions base s.connections d s.messageQueue.length k rest) := by
  induction rest with
  | nil => intro k s d base _ _ _ hne; exact absurd rfl hne
  | cons m rest ih =>
    intro k s d base hmac htimers hlen _
    have hstep : step .fireNextTimer s = fireTimer ⟨base + 2500 * k, k, m⟩ s := by
      simp [step, handleFireNext, htimers, earliestTimer_scheduleDrain]
    cases rest with
    | nil =>
      have hlen1 : s.messageQueue.length = k + 1 := by simpa using hlen
      have hcond : ((k : Nat) : Int) = (s.messageQueue.length : Int) - 1 := by
        rw [hlen1]; push_cast; omega
      simp only [List.length_cons, List.length_nil, Nat.zero_add, List.replicate,
        runFrom_cons, hstep, runFrom]
      rw [fireTimer]
      simp only [hcond, if_pos rfl, htimers, scheduleDrain, List.erase_cons_head,
        hmac, hlen]
      rw [drainEmissions]
      simp only [drainEmissions, hcond]
      simp [hlen]
    | cons m2 rest2 =>
      have hlen1 : s.messageQueue.length = k + rest2.length + 2 := by
        simp only [List.length_cons] at hlen; omega
      have hcond : ¬ (((k : Nat) : Int) = (s.messageQueue.length : Int) - 1) := by
        rw [hlen1]; push_cast; omega
      have herase : s.timers.erase ⟨base + 2500 * k, k, m⟩
          = scheduleDrain base (k + 1) (m2 :: rest2) := by
        rw [htimers]; simp only [scheduleDrain]; exact List.erase_cons_head _ _
      have hfire : step .fireNextTimer s
          = ({ s with timers := scheduleDrain base (k + 1) (m2 :: rest2),
                      now := base + 2500 * k },
             [⟨base + 2500 * k, .toRoom (some d), m.event, m.data,
                resolveTarget s.connections (.toRoom (some d))⟩,
              ⟨base + 2500 * k, .all, "statusUpdate",
                .statusQueueQueued ((s.messageQueue.length : Int) - (k : Int) - 1),
                s.connections⟩]) := by
        rw [hstep, fireTimer]
        simp only [if_neg hcond, herase, hmac]
      have hrec := ih (k + 1)
        ({ s with timers := scheduleDrain base (k + 1) (m2 :: rest2),
                  now := base + 2500 * k }) d base hmac rfl
        (by simp only [List.length_cons] at hlen ⊢; omega) (by simp)
      simp only [List.length_cons] at hrec ⊢
      rw [List.replicate, runFrom_cons, hfire]
      rw [hrec]
      conv_rhs => rw [drainEmissions]
      rw [if_neg hcond]
      have harith : k + 1 + (rest2.length + 1) - 1 = k + (rest2.length + 1 + 1) - 1 := by
        omega
      rw [harith]
      simp

/-- Expected emission trace of a run of `wordToMac` events with no device
bound: each one broadcasts the growing queue depth. -/
def enqueueEmissions (tm : Nat) (conns : List String) : Nat → List String → List Emission
  | _, [] => []
  | len, _w :: ws =>
    ⟨tm, .all, "statusUpdate", .statusQueueQueued ((len : Int) + 1), conns⟩ ::
      enqueueEmissions tm conns (len + 1) ws

/-- Running a sequence of text commands with no device bound appends them
to the queue in order, tracks the last one in `lastWord`, and broadcasts
the growing queue depth; nothing else changes. -/
lemma word_run (v : String) (ws : List String) :
    ∀ (s : ServerState), s.macUserSocketId = none →
      runFrom s (ws.map (Event.wordToMac v))
        = ({ s with messageQueue := s.messageQueue ++ ws.map wordMsg,
                    lastWord := lastOf s.lastWord ws },
           enqueueEmissions s.now s.connections s.messageQueue.length ws) := by
  induction ws with
  | nil => intro s h; simp [runFrom, lastOf, enqueueEmissions]
  | cons w ws ih =>
    intro s h
    have hstep : step (Event.wordToMac v w) s
        = ({ s with lastWord := w, messageQueue := s.messageQueue ++ [wordMsg w] },
           [⟨s.now, .all, "statusUpdate",
              .statusQueueQueued ((s.messageQueue.length : Int) + 1), s.connections⟩]) := by
      simp [step, handleWordToMac, sendToMac, mkEmission, resolveTarget, wordMsg, h]
    have hrec := ih ({ s with lastWord := w,
                              messageQueue := s.messageQueue ++ [wordMsg w] }) h
    simp only [List.map_cons]
    rw [runFrom_cons, hstep, hrec]
    simp [lastOf, enqueueEmissions]

/-- Payloads whose shape is a queue-depth count. -/
def queuedCountOf : Value → Option Int
  | .statusQueueQueued n => some n
  | _ => none

/-- The device-room deliveries of a drain trace are exactly the captured
message payloads, in order. -/
lemma drainEmissions_deliv_payload (base n : Nat) (conns : List String) (d : String) :
    ∀ (i : Nat) (q : List QueuedMsg),
      ((drainEmissions base conns d n i q).filter
          (fun e => e.target == EmitTarget.toRoom (some d))).map Emission.payload
        = q.map QueuedMsg.data := by
  intro i q
  induction q generalizing i with
  | nil => simp [drainEmissions]
  | cons m rest ih =>
    simp only [drainEmissions, List.filter_cons, List.filter_append]
    split <;> simp_all

/-- The device-room deliveries of a drain trace happen at the fixed
2.5-second cadence. -/
lemma drainEmissions_deliv_time (base n : Nat) (conns : List String) (d : String) :
    ∀ (i : Nat) (q : List QueuedMsg),
      ((drainEmissions base conns d n i q).filter
          (fun e => e.target == EmitTarget.toRoom (some d))).map Emission.time
        = (List.range' i q.length).map (fun j => base + 2500 * j) := by
  intro i q
  induction q generalizing i with
  | nil => simp [drainEmissions]
  | cons m rest ih =>
    simp only [drainEmissions, List.filter_cons, List.filter_append, List.length_cons,
      List.range']
    split <;> simp_all

/-- The queue-depth counts broadcast during a drain strictly descend by
one, from `n - i - 1` down to `n - (i + q.length)`, provided the drained
messages themselves are not status payloads. -/
lemma drainEmissions_counts (base n : Nat) (conns : List String) (d : String) :
    ∀ (i : Nat) (q : List QueuedMsg), (∀ m ∈ q, queuedCountOf m.data = none) →
      (drainEmissions base conns d n i q).filterMap (fun e => queuedCountOf e.payload)
        = (List.range' i q.length).map (fun j => (n : Int) - j - 1) := by
  intro i q
  induction q generalizing i with
  | nil => intro _; simp [drainEmissions]
  | cons m rest ih =>
    intro hq
    have hm : queuedCountOf m.data = none := hq m (by simp)
    have hrest : ∀ m2 ∈ rest, queuedCountOf m2.data = none :=
      fun m2 hm2 => hq m2 (by simp [hm2])
    simp only [drainEmissions, List.filterMap_cons, List.filterMap_append, hm,
      List.length_cons, List.range', queuedCountOf]
    split <;> simp_all [queuedCountOf, List.filterMap_cons]

/-- Every device-room delivery of a drain trace reaches the same resolved
recipient set. -/
lemma drainEmissions_deliv_recipients (base n : Nat) (conns : List String) (d : String) :
    ∀ (i : Nat) (q : List QueuedMsg),
      ((drainEmissions base conns d n i q).filter
          (fun e => e.target == EmitTarget.toRoom (some d))).map Emission.recipients
        = List.replicate q.length (resolveTarget conns (.toRoom (some d))) := by
  intro i q
  induction q generalizing i with
  | nil => simp [drainEmissions]
  | cons m rest ih =>
    simp only [drainEmissions, List.filter_cons, List.filter_append, List.length_cons,
      List.replicate]
    split <;> simp_all

/-- A drain trace over a non-empty suffix is non-empty. -/
lemma drainEmissions_ne_nil (base n i : Nat) (conns : List String) (d : String)
    (m : QueuedMsg) (rest : List QueuedMsg) :
    drainEmissions base conns d n i (m :: rest) ≠ [] := by
  simp [drainEmissions]

/-- A complete drain trace (indices `i` through `n - 1`) ends with the
queue-cleared broadcast, stamped at the last delivery instant. -/
lemma drainEmissions_getLast (base : Nat) (conns : List String) (d : String) (n : Nat) :
    ∀ (i : Nat) (q : List QueuedMsg), q ≠ [] → n = i + q.length →
      (drainEmissions base conns d n i q).getLast?
        = some ⟨base + 2500 * (n - 1), .all, "statusUpdate", .statusQueueCleared, conns⟩ := by
  intro i q
  induction q generalizing i with
  | nil => intro hne _; exact absurd rfl hne
  | cons m rest ih =>
    intro _ hn
    cases rest with
    | nil =>
      have hcond : ((i : Nat) : Int) = (n : Int) - 1 := by
        subst hn; push_cast; simp
      have hi : i = n - 1 := by omega
      have hc2 : ((n - 1 : Nat) : Int) = (n : Int) - 1 := by omega
      simp [drainEmissions, hcond, hi, hc2]
    | cons m2 rest2 =>
      have hcond : ¬ (((i : Nat) : Int) = (n : Int) - 1) := by
        subst hn; simp only [List.length_cons]; push_cast; omega
      have hrec := ih (i + 1) (by simp)
        (by subst hn; simp only [List.length_cons]; omega)
      rw [drainEmissions, if_neg hcond]
      simp only [List.nil_append]
      rw [List.getLast?_cons_cons]
      cases h : (drainEmissions base conns d n (i + 1) (m2 :: rest2)) with
      | nil => exact absurd h (drainEmissions_ne_nil base n (i + 1) conns d m2 rest2)
      | cons x xs =>
        rw [List.getLast?_cons_cons]
        rw [h] at hrec
        exact hrec

/-- Full result of a device identification with a non-empty queue: bind
the device, broadcast the connected status, push last word / quality /
frame-rate to the device, and schedule the drain timers. -/
lemma identify_macos_run (sid : String) (s : ServerState)
    (h : 0 < s.messageQueue.length) :
    handleIdentify sid "macos" s
      = ({ s with macUserSocketId := some sid,
                  timers := s.timers ++ scheduleDrain s.now 0 s.messageQueue },
         [⟨s.now, .all, "statusUpdate", .statusMac true, s.connections⟩,
          ⟨s.now, .direct sid, "wordToMac", .str s.lastWord, [sid]⟩,
          ⟨s.now, .direct sid, "qualityChange", s.lastQuality, [sid]⟩,
          ⟨s.now, .direct sid, "frameRateChange", s.lastFrameRate, [sid]⟩]) := by
  simp [handleIdentify, mkEmission, resolveTarget, h]

/-- Claim C1 (evaluation of the code at the failing input): with one
command queued, a web client's identification does not report depth 1 and
leave the queue alone; the handler resets the queue to `[]` and then sends
a queue status whose count is the length of the already-cleared queue,
i.e. `0`. -/
theorem c1_code_eval :
    (runAll [.connect "v", .wordToMac "v" "About", .connect "w1"]).1.messageQueue
      = [⟨"wordToMac", Value.str "About"⟩] ∧
    (runAll [.connect "v", .wordToMac "v" "About", .connect "w1",
             .identify "w1" "web"]).1.messageQueue = [] ∧
    (runAll [.connect "v", .wordToMac "v" "About", .connect "w1",
             .identify "w1" "web"]).2.getLast?
      = some ⟨0, .direct "w1", "statusUpdate", .statusQueueQueued 0, ["w1"]⟩ := by
  decide

/-- Claim C3 (counterexample): after queueing two commands, identifying the
device and letting the first drain timer fire, a further text command `B`
arrives while the device is bound — yet it is enqueued (the queue still
being non-empty), and no unicast of `B` to the device ever occurs in the
trace.  This falsifies "enqueued if and only if no device is bound". -/
theorem c3_counterexample :
    (runAll [.connect "v", .connect "dev", .wordToMac "v" "A1", .wordToMac "v" "A2",
             .identify "dev" "macos", .fireNextTimer, .wordToMac "v" "B"]).1.macUserSocketId
      = some "dev" ∧
    (runAll [.connect "v", .connect "dev", .wordToMac "v" "A1", .wordToMac "v" "A2",
             .identify "dev" "macos", .fireNextTimer, .wordToMac "v" "B"]).1.messageQueue.map
        QueuedMsg.data
      = [Value.str "A1", Value.str "A2", Value.str "B"] ∧
    ((runAll [.connect "v", .connect "dev", .wordToMac "v" "A1", .wordToMac "v" "A2",
              .identify "dev" "macos", .fireNextTimer, .wordToMac "v" "B"]).2.filter
        (fun e => e.payload == Value.str "B" && e.target == EmitTarget.toRoom (some "dev"))).length
      = 0 := by
  decide

/-- Claim C3 (amended): an inbound text command always stores its payload
as the last command; it is enqueued iff no device is bound **or** the
queue is non-empty (commands arriving behind a pending queue are queued
even though a device is bound), and it is unicast immediately iff a device
is bound and the queue is empty. -/
theorem c3_amended (s : ServerState) (sid w : String) :
    (handleWordToMac sid w s).1.lastWord = w ∧
    ((handleWordToMac sid w s).1.messageQueue = s.messageQueue ++ [wordMsg w]
        ↔ (s.macUserSocketId = none ∨ s.messageQueue ≠ [])) ∧
    ((handleWordToMac sid w s).2
        = [⟨s.now, .toRoom s.macUserSocketId, "wordToMac", .str w,
            resolveTarget s.connections (.toRoom s.macUserSocketId)⟩]
      ↔ (s.macUserSocketId.isSome = true ∧ s.messageQueue = [])) := by
  cases h1 : s.macUserSocketId <;> cases h2 : s.messageQueue <;>
    simp [handleWordToMac, sendToMac, mkEmission, wordMsg, h1, h2]

/-- Claim C3 (witness for the amended theorem): a concrete instance at
`sampleState` (device bound, queue empty): the command is unicast, not
queued. -/
theorem c3_amended_witness :
    (handleWordToMac "y" "Close" sampleState).1.lastWord = "Close" ∧
    ¬ ((handleWordToMac "y" "Close" sampleState).1.messageQueue
        = sampleState.messageQueue ++ [wordMsg "Close"]) := by
  refine ⟨(c3_amended sampleState "y" "Close").1, ?_⟩
  intro h
  have h2 := ((c3_amended sampleState "y" "Close").2.1).mp h
  revert h2
  decide

/-- Claim C4 (counterexample): set quality to 50 via a connection `a`,
then connect a viewer `v`: the viewer's hydration consists of
clipboard, emoji, rendered markup and the device status only — the stored
quality (50) is never delivered to `v`, so the snapshot does not contain
every channel. -/
theorem c4_counterexample :
    (runAll [.connect "a", .connect "v", .qualityChange "a" "50",
             .identify "v" "web"]).1.lastQuality = Value.num 50 ∧
    ((runAll [.connect "a", .connect "v", .qualityChange "a" "50",
              .identify "v" "web"]).2.filter
        (fun e => e.recipients.contains "v")).map Emission.event
      = ["clipboardData", "emojiToWeb", "renderHTML", "statusUpdate"] := by
  decide

/-- Claim C4 (amended): a new viewer's hydration snapshot is exactly the
latest stored clipboard, emoji and rendered-markup values plus the
device-connection status, each sent directly to the viewer (followed, when
the queue is non-empty, by the queue-status event of the C1 defect); the
quality, frame-rate and last-command channels are not part of viewer
hydration — they are pushed only to a device at device identification. -/
theorem c4_amended (s : ServerState) (v : String) :
    ((handleIdentify v "web" s).2.map (fun e => (e.target, e.event, e.payload)))
      = [(.direct v, "clipboardData", Value.str s.lastClipboardContent),
         (.direct v, "emojiToWeb", Value.str s.lastEmoji),
         (.direct v, "renderHTML", Value.str s.lastHtmlSource),
         (.direct v, "statusUpdate", Value.statusMac s.macUserSocketId.isSome)]
        ++ (if 0 < s.messageQueue.length
            then [(EmitTarget.direct v, "statusUpdate", Value.statusQueueQueued 0)]
            else []) := by
  simp only [handleIdentify]
  split
  · simp_all
  · split <;> simp_all [mkEmission]

/-- Claim C4 (witness for the amended theorem): concrete hydration at
`sampleState`. -/
theorem c4_amended_witness :
    ((handleIdentify "v" "web" sampleState).2.map (fun e => (e.target, e.event, e.payload)))
      = [(.direct "v", "clipboardData", Value.str "Welcome to the shared clipboard!"),
         (.direct "v", "emojiToWeb", Value.str "⌛"),
         (.direct "v", "renderHTML", Value.str sampleState.lastHtmlSource),
         (.direct "v", "statusUpdate", Value.statusMac true)] := by
  have h := c4_amended sampleState "v"
  simpa using h

/-- Claim C5 (counterexample): a screen frame sent by `dev` is emitted via
`io.emit`, whose recipient set is every connection — including the sender
`dev` itself, falsifying "never echoed back to the connection that sent
it". -/
theorem c5_counterexample :
    (runAll [.connect "dev", .connect "v", .screenData "dev" "FRAME"]).2
      = [⟨0, .all, "screenData", .str "FRAME", ["dev", "v"]⟩] ∧
    ((runAll [.connect "dev", .connect "v", .screenData "dev" "FRAME"]).2.map
        (fun e => e.recipients.contains "dev"))
      = [true] := by
  decide

/-- Claim C5 (amended): every inbound screen-frame payload is broadcast
unchanged and the state is untouched; in the current revision
(`src/webapp/index.js`) the broadcast reaches **all** connections, the
sender included, while the earlier revision (`src/unnamed/part_000`)
excluded the sender. -/
theorem c5_amended (s : ServerState) (sid data : String) :
    handleScreenData sid data s
      = (s, [⟨s.now, .all, "screenData", .str data, s.connections⟩]) ∧
    handleScreenDataV0 sid data s
      = (s, [⟨s.now, .broadcastFrom sid, "screenData", .str data,
              s.connections.filter (fun c => c != sid)⟩]) :=
  ⟨rfl, rfl⟩

/-- Claim C5 (witness for the amended theorem): concrete broadcast from
`sampleState`; the sender `x` is among the recipients of the current
revision's broadcast but not of the old revision's. -/
theorem c5_amended_witness :
    handleScreenData "x" "IMG" sampleState
      = (sampleState, [⟨0, .all, "screenData", .str "IMG", ["x", "y"]⟩]) ∧
    handleScreenDataV0 "x" "IMG" sampleState
      = (sampleState, [⟨0, .broadcastFrom "x", "screenData", .str "IMG", ["y"]⟩]) := by
  have h := c5_amended sampleState "x" "IMG"
  simpa using h

/-- Claim C6: device binding is last-writer-wins and cleared exactly by
the bound connection's disconnect.  After `a` and then `b` identify as
device, the binding is `b`; device-directed unicasts target `b`'s room
only; `a`'s disconnect neither clears the binding nor emits any status;
`b`'s disconnect clears the binding and broadcasts the disconnected
status to all remaining connections. -/
theorem c6_device_binding (s : ServerState) (a b sid p : String) (hab : a ≠ b) :
    (handleIdentify b "macos" (handleIdentify a "macos" s).1).1.macUserSocketId = some b ∧
    ((handleQualityChange sid p
        (handleIdentify b "macos" (handleIdentify a "macos" s).1).1).2.map Emission.target
      = [.toRoom (some b)]) ∧
    (handleDisconnect a (handleIdentify b "macos" (handleIdentify a "macos" s).1).1).1.macUserSocketId
      = some b ∧
    (handleDisconnect a (handleIdentify b "macos" (handleIdentify a "macos" s).1).1).2 = [] ∧
    (handleDisconnect b (handleIdentify b "macos" (handleIdentify a "macos" s).1).1).1.macUserSocketId
      = none ∧
    (handleDisconnect b (handleIdentify b "macos" (handleIdentify a "macos" s).1).1).2
      = [⟨s.now, .all, "statusUpdate", .statusMac false, s.connections.erase b⟩] := by
  simp [identify_macos_state, handleDisconnect, handleQualityChange, sendToMac,
    mkEmission, resolveTarget, hab, Ne.symm hab]

/-- Claim C6 (witness): the binding scenario evaluated with connections
`A`, `B` from the initial state. -/
theorem c6_device_binding_witness :
    (handleIdentify "B" "macos" (handleIdentify "A" "macos" initialState).1).1.macUserSocketId
      = some "B" ∧
    (handleDisconnect "A"
        (handleIdentify "B" "macos" (handleIdentify "A" "macos" initialState).1).1).2 = [] :=
  ⟨(c6_device_binding initialState "A" "B" "w" "50" (by decide)).1,
   (c6_device_binding initialState "A" "B" "w" "50" (by decide)).2.2.2.1⟩

/-- Claim C7: with no device bound, a quality or frame-rate change leaves
the queue untouched and its single emission reaches nobody (the `null`
room), while a text command appends exactly one entry to the queue. -/
theorem c7_drop_vs_queue (s : ServerState) (sid p w : String)
    (h : s.macUserSocketId = none) :
    (handleQualityChange sid p s).1.messageQueue = s.messageQueue ∧
    (handleQualityChange sid p s).2
      = [⟨s.now, .toRoom none, "qualityChange", parseIntJS p, []⟩] ∧
    (handleFrameRateChange sid p s).1.messageQueue = s.messageQueue ∧
    (handleFrameRateChange sid p s).2
      = [⟨s.now, .toRoom none, "frameRateChange", parseIntJS p, []⟩] ∧
    (handleWordToMac sid w s).1.messageQueue = s.messageQueue ++ [wordMsg w] := by
  simp [handleQualityChange, handleFrameRateChange, handleWordToMac, sendToMac,
    mkEmission, resolveTarget, wordMsg, h]

/-- Claim C7 (witness): evaluated at the initial state (no device
bound). -/
theorem c7_drop_vs_queue_witness :
    (handleQualityChange "v" "55" initialState).1.messageQueue = [] ∧
    (handleWordToMac "v" "About" initialState).1.messageQueue = [wordMsg "About"] :=
  ⟨(c7_drop_vs_queue initialState "v" "55" "About" rfl).1,
   (c7_drop_vs_queue initialState "v" "55" "About" rfl).2.2.2.2⟩

/-- Claim C8: an unparseable quality or frame-rate payload stores the
non-numeric parse result (`NaN`) in the registry, and the event is still
processed normally: the handler completes and still produces its single
(`NaN`-carrying) emission toward the device room. -/
theorem c8_nan_stored (s : ServerState) (sid p : String)
    (h : parseIntJS p = Value.nan) :
    (handleQualityChange sid p s).1.lastQuality = Value.nan ∧
    (handleQualityChange sid p s).2
      = [⟨s.now, .toRoom s.macUserSocketId, "qualityChange", Value.nan,
          resolveTarget s.connections (.toRoom s.macUserSocketId)⟩] ∧
    (handleFrameRateChange sid p s).1.lastFrameRate = Value.nan ∧
    (handleFrameRateChange sid p s).2
      = [⟨s.now, .toRoom s.macUserSocketId, "frameRateChange", Value.nan,
          resolveTarget s.connections (.toRoom s.macUserSocketId)⟩] := by
  simp [handleQualityChange, handleFrameRateChange, sendToMac, mkEmission, h]

/-- Claim C8 (witness): the payload `"abc"` parses to `NaN` and is stored
as the last quality. -/
theorem c8_nan_stored_witness :
    (handleQualityChange "v" "abc" sampleState).1.lastQuality = Value.nan :=
  (c8_nan_stored sampleState "v" "abc" (by decide)).1

/-- Claim C9: a clipboard update from `sid` is stored in the registry and
broadcast to exactly the other connections: the sender is not among the
recipients, and every other connection is. -/
theorem c9_clipboard_no_echo (s : ServerState) (sid content : String) :
    (handleClipboardData sid content s).1.lastClipboardContent = content ∧
    (handleClipboardData sid content s).2
      = [⟨s.now, .broadcastFrom sid, "clipboardData", .str content,
          s.connections.filter (fun c => c != sid)⟩] ∧
    sid ∉ s.connections.filter (fun c => c != sid) ∧
    ∀ c ∈ s.connections, c ≠ sid → c ∈ s.connections.filter (fun c => c != sid) := by
  refine ⟨rfl, rfl, ?_, ?_⟩
  · intro hmem
    simp [List.mem_filter] at hmem
  · intro c hc hne
    simp [List.mem_filter, hc, hne]

/-- Claim C9 (witness): clipboard update from `x` in `sampleState` reaches
`y` but not `x`. -/
theorem c9_clipboard_no_echo_witness :
    (handleClipboardData "x" "hi" sampleState).1.lastClipboardContent = "hi" ∧
    "x" ∉ sampleState.connections.filter (fun c => c != "x") ∧
    "y" ∈ sampleState.connections.filter (fun c => c != "x") :=
  ⟨(c9_clipboard_no_echo sampleState "x" "hi").1,
   (c9_clipboard_no_echo sampleState "x" "hi").2.2.1,
   (c9_clipboard_no_echo sampleState "x" "hi").2.2.2 "y" (by decide) (by decide)⟩

/-- Claim C2: enqueue any non-empty sequence of text commands with no
device bound, then identify a device and let every drain timer fire.  The
full trace is the growing-depth broadcasts, the identification pushes, and
then the drain trace `drainEmissions`, in which each queued command is
unicast to the device in enqueue order at the fixed 2500 ms cadence, each
delivery is followed by a queue-depth broadcast counting `N-1` down to
`0`, and the trace ends with the queue-cleared broadcast to every
connection; the final queue is empty. -/
theorem c2_fifo_drain (ws : List String) (hne : ws ≠ []) :
    runAll (.connect "viewer" :: ws.map (Event.wordToMac "viewer")
        ++ [.connect "dev", .identify "dev" "macos"]
        ++ List.replicate ws.length .fireNextTimer)
      = ({ initialState with
             lastWord := lastOf "Ready" ws,
             macUserSocketId := some "dev",
             messageQueue := [],
             connections := ["viewer", "dev"],
             timers := [],
             now := 2500 * (ws.length - 1) },
         enqueueEmissions 0 ["viewer"] 0 ws
           ++ [⟨0, .all, "statusUpdate", .statusMac true, ["viewer", "dev"]⟩,
               ⟨0, .direct "dev", "wordToMac", .str (lastOf "Ready" ws), ["dev"]⟩,
               ⟨0, .direct "dev", "qualityChange", .num 1, ["dev"]⟩,
               ⟨0, .direct "dev", "frameRateChange", .num 16, ["dev"]⟩]
           ++ drainEmissions 0 ["viewer", "dev"] "dev" ws.length 0 (ws.map wordMsg)) ∧
    ((drainEmissions 0 ["viewer", "dev"] "dev" ws.length 0 (ws.map wordMsg)).filter
        (fun e => e.target == EmitTarget.toRoom (some "dev"))).map Emission.payload
      = ws.map Value.str ∧
    ((drainEmissions 0 ["viewer", "dev"] "dev" ws.length 0 (ws.map wordMsg)).filter
        (fun e => e.target == EmitTarget.toRoom (some "dev"))).map Emission.time
      = (List.range ws.length).map (fun i => 2500 * i) ∧
    (drainEmissions 0 ["viewer", "dev"] "dev" ws.length 0 (ws.map wordMsg)).filterMap
        (fun e => queuedCountOf e.payload)
      = (List.range ws.length).map (fun i => (ws.length : Int) - (i : Int) - 1) ∧
    (drainEmissions 0 ["viewer", "dev"] "dev" ws.length 0 (ws.map wordMsg)).getLast?
      = some ⟨2500 * (ws.length - 1), .all, "statusUpdate", .statusQueueCleared,
          ["viewer", "dev"]⟩ := by
  have hmapne : ws.map wordMsg ≠ [] := by simpa using hne
  refine ⟨?_, ?_, ?_, ?_, ?_⟩
  · have h2 := word_run "viewer" ws { initialState with connections := ["viewer"] } rfl
    have h4 : step (Event.identify "dev" "macos")
          { initialState with
              lastWord := lastOf "Ready" ws,
              messageQueue := ws.map wordMsg,
              connections := ["viewer", "dev"] }
        = ({ initialState with
               lastWord := lastOf "Ready" ws,
               macUserSocketId := some "dev",
               messageQueue := ws.map wordMsg,
               connections := ["viewer", "dev"],
               timers := scheduleDrain 0 0 (ws.map wordMsg) },
           [⟨0, .all, "statusUpdate", .statusMac true, ["viewer", "dev"]⟩,
            ⟨0, .direct "dev", "wordToMac", .str (lastOf "Ready" ws), ["dev"]⟩,
            ⟨0, .direct "dev", "qualityChange", .num 1, ["dev"]⟩,
            ⟨0, .direct "dev", "frameRateChange", .num 16, ["dev"]⟩]) := by
      have := identify_macos_run "dev"
        { initialState with
            lastWord := lastOf "Ready" ws,
            messageQueue := ws.map wordMsg,
            connections := ["viewer", "dev"] }
        (by simpa using List.length_pos.mpr hne)
      simpa using this
    have h5 := drain_run (ws.map wordMsg) 0
      { initialState with
          lastWord := lastOf "Ready" ws,
          macUserSocketId := some "dev",
          messageQueue := ws.map wordMsg,
          connections := ["viewer", "dev"],
          timers := scheduleDrain 0 0 (ws.map wordMsg) }
      "dev" 0 rfl rfl (by simp) hmapne
    dsimp only [initialState, List.nil_append, List.length_nil] at h2 h4 h5
    simp only [List.length_map, Nat.zero_add] at h5
    rw [runAll]
    simp only [List.cons_append, List.append_assoc, List.nil_append]
    rw [runFrom_cons]
    dsimp only [step, handleConnect, initialState, List.nil_append, List.length_nil]
    rw [runFrom_append]
    rw [h2]
    dsimp only [List.cons_append, List.nil_append]
    rw [runFrom_cons]
    dsimp only [step, handleConnect, List.cons_append, List.nil_append]
    rw [runFrom_cons]
    rw [h4]
    dsimp only
    rw [h5]
    dsimp only [initialState]
    simp [List.append_assoc]
  · rw [drainEmissions_deliv_payload]
    simp [wordMsg]
  · rw [drainEmissions_deliv_time]
    simp [List.range_eq_range', List.length_map]
  · rw [drainEmissions_counts 0 ws.length ["viewer", "dev"] "dev" 0 (ws.map wordMsg)
        (by intro m hm; obtain ⟨w, _, rfl⟩ := List.mem_map.mp hm; rfl)]
    simp [List.range_eq_range', List.length_map]
  · rw [drainEmissions_getLast 0 ["viewer", "dev"] "dev" ws.length 0 (ws.map wordMsg)
        hmapne (by simp)]
    simp

/-- Claim C2 (witness): the spec's own example — commands `"1% About"` and
`"2% Back"` are delivered in order and the drain trace ends with the
cleared broadcast at 2500 ms. -/
theorem c2_fifo_drain_witness :
    ((drainEmissions 0 ["viewer", "dev"] "dev" 2 0
        (["1% About", "2% Back"].map wordMsg)).filter
        (fun e => e.target == EmitTarget.toRoom (some "dev"))).map Emission.payload
      = [Value.str "1% About", Value.str "2% Back"] ∧
    (drainEmissions 0 ["viewer", "dev"] "dev" 2 0
        (["1% About", "2% Back"].map wordMsg)).getLast?
      = some ⟨2500, .all, "statusUpdate", .statusQueueCleared, ["viewer", "dev"]⟩ :=
  ⟨(c2_fifo_drain ["1% About", "2% Back"] (by decide)).2.1,
   (c2_fifo_drain ["1% About", "2% Back"] (by decide)).2.2.2.2⟩

/-- Whenever the queue is non-empty, its most recently enqueued entry is a
text command whose payload is exactly the stored last command: the two are
written together by the `wordToMac` handler, and no other event ever adds
to the queue. -/
def QueueInv (s : ServerState) : Prop :=
  s.messageQueue ≠ [] →
    s.messageQueue.getLast? = some ⟨"wordToMac", Value.str s.lastWord⟩

lemma getLast?_map {α β : Type} (f : α → β) :
    ∀ (l : List α), (l.map f).getLast? = l.getLast?.map f := by
  intro l
  induction l with
  | nil => rfl
  | cons a rest ih =>
    cases rest with
    | nil => rfl
    | cons b rest2 =>
      simp only [List.map_cons, List.getLast?_cons_cons]
      simpa using ih

/-- Every event handler preserves the last-queued/last-word coupling. -/
lemma step_queueInv (e : Event) (s : ServerState) (h : QueueInv s) :
    QueueInv (step e s).1 := by
  cases e with
  | connect sid => simpa [step, handleConnect, QueueInv] using h
  | identify sid ty =>
    unfold QueueInv at h ⊢
    simp only [step, handleIdentify]
    split
    · split <;> simpa using h
    · split
      · simp
      · simpa using h
  | screenData sid d => simpa [step, handleScreenData, QueueInv] using h
  | webSourceCode sid src => simpa [step, handleWebSourceCode, QueueInv] using h
  | clipboardData sid c => simpa [step, handleClipboardData, QueueInv] using h
  | wordToMac sid w =>
    unfold QueueInv at h ⊢
    simp only [step, handleWordToMac, sendToMac]
    split
    · rename_i hc
      simp only [bne_self_eq_false, Bool.false_or, Bool.and_eq_true, beq_iff_eq] at hc
      intro hne
      exact absurd (List.length_eq_zero.mp hc.2) hne
    · intro _
      exact List.getLast?_concat _
  | qualityChange sid q =>
    unfold QueueInv at h ⊢
    simpa [step, handleQualityChange, sendToMac] using h
  | frameRateChange sid f =>
    unfold QueueInv at h ⊢
    simpa [step, handleFrameRateChange, sendToMac] using h
  | emojiToWeb sid em => simpa [step, handleEmojiToWeb, QueueInv] using h
  | disconnect sid =>
    unfold QueueInv at h ⊢
    simp only [step, handleDisconnect]
    split <;> simpa using h
  | fireNextTimer =>
    unfold QueueInv at h ⊢
    simp only [step, handleFireNext]
    cases hm : earliestTimer s.timers with
    | none => simpa using h
    | some t =>
      simp only [fireTimer]
      split
      · simp
      · simpa using h

/-- The last-queued/last-word coupling holds in every reachable state. -/
lemma runFrom_queueInv (es : List Event) :
    ∀ (s : ServerState), QueueInv s → QueueInv (runFrom s es).1 := by
  induction es with
  | nil => intro s h; simpa [runFrom] using h
  | cons e es ih =>
    intro s h
    rw [runFrom_cons]
    exact ih (step e s).1 (step_queueInv e s h)

lemma reachable_queueInv (es : List Event) : QueueInv (runAll es).1 :=
  runFrom_queueInv es initialState (fun hne => absurd rfl hne)

/-- Claim C10: in any reachable state with a non-empty queue (and no drain
already pending), the stored last command coincides with the payload of
the most recently enqueued command; a device identification pushes that
payload to the device immediately (the hydration `wordToMac`), and the
subsequent full drain unicasts every queued payload to the device in
order — so the drain's final delivery carries that same payload a second
time. -/
theorem c10_double_delivery (es : List Event) (d : String)
    (hq : (runAll es).1.messageQueue ≠ [])
    (ht : (runAll es).1.timers = [])
    (hd : d ∈ (runAll es).1.connections) :
    (runAll es).1.messageQueue.getLast?
      = some ⟨"wordToMac", Value.str (runAll es).1.lastWord⟩ ∧
    (⟨(runAll es).1.now, .direct d, "wordToMac",
        Value.str (runAll es).1.lastWord, [d]⟩ : Emission)
      ∈ (handleIdentify d "macos" (runAll es).1).2 ∧
    ((runFrom (handleIdentify d "macos" (runAll es).1).1
          (List.replicate (runAll es).1.messageQueue.length .fireNextTimer)).2.filter
        (fun e => e.target == EmitTarget.toRoom (some d))).map Emission.payload
      = (runAll es).1.messageQueue.map QueuedMsg.data ∧
    ((runFrom (handleIdentify d "macos" (runAll es).1).1
          (List.replicate (runAll es).1.messageQueue.length .fireNextTimer)).2.filter
        (fun e => e.target == EmitTarget.toRoom (some d))).map Emission.recipients
      = List.replicate (runAll es).1.messageQueue.length [d] ∧
    ((runAll es).1.messageQueue.map QueuedMsg.data).getLast?
      = some (Value.str (runAll es).1.lastWord) := by
  have hlen : 0 < (runAll es).1.messageQueue.length := List.length_pos.mpr hq
  have hinv := reachable_queueInv es hq
  have hident := identify_macos_run d (runAll es).1 hlen
  have hdrain := drain_run (runAll es).1.messageQueue 0
    (handleIdentify d "macos" (runAll es).1).1 d (runAll es).1.now
    (by rw [hident])
    (by rw [hident]; simp [ht])
    (by rw [hident]; simp)
    hq
  simp only [Nat.zero_add] at hdrain
  have hconn : (handleIdentify d "macos" (runAll es).1).1.connections
      = (runAll es).1.connections := by rw [hident]
  have hqueue : (handleIdentify d "macos" (runAll es).1).1.messageQueue
      = (runAll es).1.messageQueue := by rw [hident]
  refine ⟨hinv, ?_, ?_, ?_, ?_⟩
  · rw [hident]
    simp
  · rw [hdrain, hqueue, hconn]
    exact drainEmissions_deliv_payload (runAll es).1.now
      (runAll es).1.messageQueue.length (runAll es).1.connections d 0
      (runAll es).1.messageQueue
  · rw [hdrain, hqueue, hconn]
    rw [drainEmissions_deliv_recipients]
    simp [resolveTarget, hd]
  · rw [getLast?_map, hinv]
    rfl

/-- Claim C10 (witness): queue `A` then `B` with no device; at the
device's identification the hydration push already carries `B`, and the
drain delivers `A` then `B` again. -/
theorem c10_double_delivery_witness :
    (runAll [.connect "v", .connect "dev", .wordToMac "v" "A",
             .wordToMac "v" "B"]).1.messageQueue.getLast?
      = some ⟨"wordToMac", Value.str
          (runAll [.connect "v", .connect "dev", .wordToMac "v" "A",
                   .wordToMac "v" "B"]).1.lastWord⟩ ∧
    ((runAll [.connect "v", .connect "dev", .wordToMac "v" "A",
              .wordToMac "v" "B"]).1.messageQueue.map QueuedMsg.data).getLast?
      = some (Value.str
          (runAll [.connect "v", .connect "dev", .wordToMac "v" "A",
                   .wordToMac "v" "B"]).1.lastWord) :=
  ⟨(c10_double_delivery [.connect "v", .connect "dev", .wordToMac "v" "A",
      .wordToMac "v" "B"] "dev" (by decide) (by decide) (by decide)).1,
   (c10_double_delivery [.connect "v", .connect "dev", .wordToMac "v" "A",
      .wordToMac "v" "B"] "dev" (by decide) (by decide) (by decide)).2.2.2.2⟩

end MacBridge
